import Mathlib

/-!
Verification of the ozone-machine firmware (src/src/main.cpp) against its
natural-language specification.  The firmware's treatment controller, retry
backoff, sync engine and command executor are shallowly embedded below;
machine integers (uint32_t) are modelled as Nat reduced modulo 2^32 where an
overflow could occur, network and JSON-parse outcomes are supplied as
explicit environment records, and the pseudo-random jitter sample of
`random(-j, j+1)` is an Int parameter constrained to the interval the source
draws from.
-/

namespace Ozone

/-- Modulus of the firmware's 32-bit unsigned counters. -/
def U32 : Nat := 2 ^ 32

/-- RETRY_BASE_DELAY_MS from main.cpp line 107. -/
def RETRY_BASE_DELAY_MS : Nat := 2000

/-- RETRY_MAX_DELAY_MS from main.cpp line 108. -/
def RETRY_MAX_DELAY_MS : Nat := 300000

/-- RETRY_JITTER_PERCENT from main.cpp line 109. -/
def RETRY_JITTER_PERCENT : Nat := 20

/-- DURATION_B_MS from main.cpp line 115. -/
def DURATION_B_MS : Nat := 5000

/-- DURATION_S_MS from main.cpp line 116. -/
def DURATION_S_MS : Nat := 10000

/-- DURATION_P_MS from main.cpp line 117. -/
def DURATION_P_MS : Nat := 15000

/-- enum class Treatment (main.cpp line 133). -/
inductive Treatment : Type
  | Basic
  | Standard
  | Premium
  | None
  deriving DecidableEq, Repr

/-- Logical states of the six relay channels `relays[0..5]` (main.cpp
lines 30-38): IN1 = Basic relay, IN2 = Standard relay, IN3 = Premium relay,
IN4/IN5/IN6 = the corresponding LED mirrors. -/
structure RelayBank : Type where
  r0 : Bool
  r1 : Bool
  r2 : Bool
  r3 : Bool
  r4 : Bool
  r5 : Bool
  deriving DecidableEq, Repr

/-- The all-off relay bank written by `stopTreatment` and by setup. -/
def allOff : RelayBank := ⟨false, false, false, false, false, false⟩

/-- Persisted EEPROM image: the four u32 cells written by `saveCounters`
(ADDR_COUNTER_B/S/P, ADDR_RESET_COUNTER) and the identity strings written by
`saveIdentity` (ADDR_DEVICE_ID, ADDR_TOKEN). -/
structure Eeprom : Type where
  eCounterB : Nat
  eCounterS : Nat
  eCounterP : Nat
  eResetCounter : Nat
  eDeviceId : String
  eDeviceToken : String
  deriving DecidableEq, Repr

/-- The firmware's global mutable state relevant to the treatment
controller and command executor: counterB/S/P, resetCounter, active,
activeDurationMs, activeStartMs, the relay bank, the RAM copies of the
device identity, and the EEPROM image. -/
structure Machine : Type where
  counterB : Nat
  counterS : Nat
  counterP : Nat
  resetCounter : Nat
  active : Treatment
  activeDurationMs : Nat
  activeStartMs : Nat
  relays : RelayBank
  deviceId : String
  deviceToken : String
  eeprom : Eeprom
  deriving DecidableEq, Repr

/-- saveCounters (main.cpp lines 381-387): EEPROM.put of the three counters
and the reset counter, then commit. -/
def saveCounters (st : Machine) : Machine :=
  { st with eeprom := { st.eeprom with
      eCounterB := st.counterB
      eCounterS := st.counterS
      eCounterP := st.counterP
      eResetCounter := st.resetCounter } }

/-- saveIdentity (main.cpp lines 427-432): write both identity strings to
EEPROM, commit, then update the RAM globals. -/
def saveIdentity (i tok : String) (st : Machine) : Machine :=
  { st with
      deviceId := i
      deviceToken := tok
      eeprom := { st.eeprom with eDeviceId := i, eDeviceToken := tok } }

/-- The RAM counter of a treatment kind (counterB/counterS/counterP). -/
def counterOf : Treatment → Machine → Nat
  | Treatment.Basic, st => st.counterB
  | Treatment.Standard, st => st.counterS
  | Treatment.Premium, st => st.counterP
  | Treatment.None, _ => 0

/-- The persisted EEPROM counter of a treatment kind. -/
def eepromCounterOf : Treatment → Machine → Nat
  | Treatment.Basic, st => st.eeprom.eCounterB
  | Treatment.Standard, st => st.eeprom.eCounterS
  | Treatment.Premium, st => st.eeprom.eCounterP
  | Treatment.None, _ => 0

/-- Observable effects of `startTimer`, in program order, used to state
ordering properties (increment before relay energize, persistence before
return). -/
inductive Effect : Type
  | incCounter (t : Treatment)
  | enqueueEvent (t : Treatment)
  | relayOn (i : Nat)
  | persistCounters
  deriving DecidableEq, Repr

/-- Whether an effect energizes a relay channel. -/
def Effect.isRelayOn : Effect → Bool
  | Effect.relayOn _ => true
  | _ => false

/-- startTimer (main.cpp lines 1393-1429).  Rejects the start if a treatment
is active; otherwise increments the kind's counter (u32 wrap), enqueues the
treatment event, energizes the kind's relay and LED mirror, then runs
saveCounters and records the active treatment and its start time.  The
second component is the trace of effects in source order. -/
def startTimer (t : Treatment) (now : Nat) (st : Machine) : Machine × List Effect :=
  if st.active ≠ Treatment.None then (st, [])
  else
    match t with
    | Treatment.Basic =>
        let st1 := { st with
          activeDurationMs := DURATION_B_MS
          counterB := (st.counterB + 1) % U32 }
        let st2 := { st1 with relays := { st1.relays with r0 := true, r3 := true } }
        let st3 := { saveCounters st2 with active := Treatment.Basic, activeStartMs := now }
        (st3, [Effect.incCounter Treatment.Basic, Effect.enqueueEvent Treatment.Basic,
               Effect.relayOn 0, Effect.relayOn 3, Effect.persistCounters])
    | Treatment.Standard =>
        let st1 := { st with
          activeDurationMs := DURATION_S_MS
          counterS := (st.counterS + 1) % U32 }
        let st2 := { st1 with relays := { st1.relays with r1 := true, r4 := true } }
        let st3 := { saveCounters st2 with active := Treatment.Standard, activeStartMs := now }
        (st3, [Effect.incCounter Treatment.Standard, Effect.enqueueEvent Treatment.Standard,
               Effect.relayOn 1, Effect.relayOn 4, Effect.persistCounters])
    | Treatment.Premium =>
        let st1 := { st with
          activeDurationMs := DURATION_P_MS
          counterP := (st.counterP + 1) % U32 }
        let st2 := { st1 with relays := { st1.relays with r2 := true, r5 := true } }
        let st3 := { saveCounters st2 with active := Treatment.Premium, activeStartMs := now }
        (st3, [Effect.incCounter Treatment.Premium, Effect.enqueueEvent Treatment.Premium,
               Effect.relayOn 2, Effect.relayOn 5, Effect.persistCounters])
    | Treatment.None => (st, [])

/-- stopTreatment (main.cpp lines 1345-1358): no-op when idle, otherwise
turns all six relay channels off and clears the active-treatment fields. -/
def stopTreatment (st : Machine) : Machine :=
  if st.active = Treatment.None then st
  else { st with
    relays := allOff
    active := Treatment.None
    activeDurationMs := 0
    activeStartMs := 0 }

/-- The treatment-timeout check in loop (main.cpp line 1917): when a
treatment is active and its duration has elapsed, stopTreatment runs. -/
def tick (now : Nat) (st : Machine) : Machine :=
  if st.active ≠ Treatment.None ∧ st.activeDurationMs ≤ now - st.activeStartMs
  then stopTreatment st
  else st

/-- A machine state whose counters cannot overflow on the next increment. -/
def noOverflow (st : Machine) : Prop :=
  st.counterB + 1 < U32 ∧ st.counterS + 1 < U32 ∧ st.counterP + 1 < U32

/-- An all-zero, idle machine as produced by a first boot. -/
def initMachine : Machine :=
  { counterB := 0, counterS := 0, counterP := 0, resetCounter := 0
    active := Treatment.None, activeDurationMs := 0, activeStartMs := 0
    relays := allOff, deviceId := "", deviceToken := ""
    eeprom := ⟨0, 0, 0, 0, "", ""⟩ }

/-- Operations of the treatment state machine: a start request, an explicit
stop, and a timer tick at a given millisecond count. -/
inductive Op : Type
  | start (t : Treatment) (now : Nat)
  | stop
  | tickAt (now : Nat)
  deriving DecidableEq, Repr

/-- One operation applied to the machine state. -/
def stepOp : Op → Machine → Machine
  | Op.start t now, st => (startTimer t now st).1
  | Op.stop, st => stopTreatment st
  | Op.tickAt now, st => tick now st

/-- A sequence of operations applied in order. -/
def runOps : List Op → Machine → Machine
  | [], st => st
  | op :: ops, st => runOps ops (stepOp op st)

/-- The relay bank the firmware drives for each value of `active`. -/
def treatmentRelays : Treatment → RelayBank
  | Treatment.Basic => ⟨true, false, false, true, false, false⟩
  | Treatment.Standard => ⟨false, true, false, false, true, false⟩
  | Treatment.Premium => ⟨false, false, true, false, false, true⟩
  | Treatment.None => allOff

/-- Invariant: the relay bank mirrors the active treatment. -/
def relaysMatch (st : Machine) : Prop :=
  st.relays = treatmentRelays st.active

/-- Number of energized treatment relays (IN1, IN2, IN3). -/
def activeRelayCount (st : Machine) : Nat :=
  (if st.relays.r0 then 1 else 0) + (if st.relays.r1 then 1 else 0) +
    (if st.relays.r2 then 1 else 0)

theorem relaysMatch_stopTreatment (st : Machine) (h : relaysMatch st) :
    relaysMatch (stopTreatment st) := by
  by_cases hA : st.active = Treatment.None
  · simpa [stopTreatment, hA] using h
  · simp [stopTreatment, hA, relaysMatch, treatmentRelays]

theorem relaysMatch_stepOp (op : Op) (st : Machine) (h : relaysMatch st) :
    relaysMatch (stepOp op st) := by
  cases op with
  | start t now =>
      by_cases hA : st.active = Treatment.None
      · have hr : st.relays = allOff := by
          simpa [relaysMatch, hA, treatmentRelays] using h
        cases t <;>
          simp [stepOp, startTimer, hA, relaysMatch, treatmentRelays,
            saveCounters, hr, allOff]
      · simpa [stepOp, startTimer, hA] using h
  | stop => exact relaysMatch_stopTreatment st h
  | tickAt now =>
      by_cases hc : st.active ≠ Treatment.None ∧ st.activeDurationMs ≤ now - st.activeStartMs
      · simpa [stepOp, tick, hc] using relaysMatch_stopTreatment st h
      · simpa [stepOp, tick, hc] using h

theorem relaysMatch_runOps (ops : List Op) (st : Machine) (h : relaysMatch st) :
    relaysMatch (runOps ops st) := by
  induction ops generalizing st with
  | nil => exact h
  | cons op ops ih => exact ih (stepOp op st) (relaysMatch_stepOp op st h)

theorem activeRelayCount_of_match (st : Machine) (h : relaysMatch st) :
    activeRelayCount st ≤ 1 := by
  have hr := h
  unfold relaysMatch at hr
  cases hA : st.active <;>
    simp [activeRelayCount, hr, hA, treatmentRelays, allOff]

/-- Claim C1: an accepted treatment start increments the started kind's
counter by exactly one, the increment precedes energizing the kind's relay
in the effect trace, and the new counter value is persisted to EEPROM
before startTimer returns. -/
theorem startTimer_increments_and_persists (t : Treatment) (now : Nat) (st : Machine)
    (hIdle : st.active = Treatment.None) (ht : t ≠ Treatment.None)
    (hov : counterOf t st + 1 < U32) :
    counterOf t (startTimer t now st).1 = counterOf t st + 1 ∧
    eepromCounterOf t (startTimer t now st).1 = counterOf t st + 1 ∧
    Effect.persistCounters ∈ (startTimer t now st).2 ∧
    ∃ l1 l2, (startTimer t now st).2 = l1 ++ l2 ∧
      Effect.incCounter t ∈ l1 ∧ ∀ e ∈ l1, e.isRelayOn = false := by
  cases t with
  | None => exact absurd rfl ht
  | Basic =>
      simp only [counterOf] at hov
      refine ⟨?_, ?_, ?_,
        ⟨[Effect.incCounter Treatment.Basic, Effect.enqueueEvent Treatment.Basic],
         [Effect.relayOn 0, Effect.relayOn 3, Effect.persistCounters], ?_, ?_, ?_⟩⟩ <;>
        simp [startTimer, hIdle, counterOf, eepromCounterOf, saveCounters,
          Nat.mod_eq_of_lt hov, Effect.isRelayOn]
  | Standard =>
      simp only [counterOf] at hov
      refine ⟨?_, ?_, ?_,
        ⟨[Effect.incCounter Treatment.Standard, Effect.enqueueEvent Treatment.Standard],
         [Effect.relayOn 1, Effect.relayOn 4, Effect.persistCounters], ?_, ?_, ?_⟩⟩ <;>
        simp [startTimer, hIdle, counterOf, eepromCounterOf, saveCounters,
          Nat.mod_eq_of_lt hov, Effect.isRelayOn]
  | Premium =>
      simp only [counterOf] at hov
      refine ⟨?_, ?_, ?_,
        ⟨[Effect.incCounter Treatment.Premium, Effect.enqueueEvent Treatment.Premium],
         [Effect.relayOn 2, Effect.relayOn 5, Effect.persistCounters], ?_, ?_, ?_⟩⟩ <;>
        simp [startTimer, hIdle, counterOf, eepromCounterOf, saveCounters,
          Nat.mod_eq_of_lt hov, Effect.isRelayOn]

/-- Witness for C1: a concrete accepted start of the Basic kind. -/
theorem startTimer_increments_and_persists_witness :
    counterOf Treatment.Basic (startTimer Treatment.Basic 5 initMachine).1
      = counterOf Treatment.Basic initMachine + 1 ∧
    Effect.persistCounters ∈ (startTimer Treatment.Basic 5 initMachine).2 := by
  have h := startTimer_increments_and_persists Treatment.Basic 5 initMachine rfl
    (by decide) (by decide)
  exact ⟨h.1, h.2.2.1⟩

/-- Claim C2: starting while a treatment is active is a no-op, the only
transitions of `active` are Idle to Active on an accepted start and Active
to Idle on stop or timeout, and along any operation sequence at most one
treatment relay is energized. -/
theorem treatment_mutual_exclusion (st : Machine) :
    (∀ t now, st.active ≠ Treatment.None → stepOp (Op.start t now) st = st) ∧
    (∀ op, (stepOp op st).active = st.active ∨
      (st.active = Treatment.None ∧
        ∃ t now, op = Op.start t now ∧ t ≠ Treatment.None ∧ (stepOp op st).active = t) ∨
      (st.active ≠ Treatment.None ∧ (stepOp op st).active = Treatment.None ∧
        (op = Op.stop ∨ ∃ n, op = Op.tickAt n))) ∧
    (∀ ops, relaysMatch st →
      relaysMatch (runOps ops st) ∧ activeRelayCount (runOps ops st) ≤ 1) := by
  refine ⟨?_, ?_, ?_⟩
  · intro t now hA
    simp [stepOp, startTimer, hA]
  · intro op
    cases op with
    | start t now =>
        by_cases hA : st.active = Treatment.None
        · cases t with
          | None => left; simp [stepOp, startTimer, hA]
          | Basic =>
              right; left
              exact ⟨hA, Treatment.Basic, now, rfl, by decide,
                by simp [stepOp, startTimer, hA, saveCounters]⟩
          | Standard =>
              right; left
              exact ⟨hA, Treatment.Standard, now, rfl, by decide,
                by simp [stepOp, startTimer, hA, saveCounters]⟩
          | Premium =>
              right; left
              exact ⟨hA, Treatment.Premium, now, rfl, by decide,
                by simp [stepOp, startTimer, hA, saveCounters]⟩
        · left; simp [stepOp, startTimer, hA]
    | stop =>
        by_cases hA : st.active = Treatment.None
        · left; simp [stepOp, stopTreatment, hA]
        · right; right
          exact ⟨hA, by simp [stepOp, stopTreatment, hA], Or.inl rfl⟩
    | tickAt now =>
        by_cases hc : st.active ≠ Treatment.None ∧ st.activeDurationMs ≤ now - st.activeStartMs
        · right; right
          exact ⟨hc.1, by simp [stepOp, tick, hc, stopTreatment, hc.1], Or.inr ⟨now, rfl⟩⟩
        · left; simp [stepOp, tick, hc]
  · intro ops h
    exact ⟨relaysMatch_runOps ops st h,
      activeRelayCount_of_match _ (relaysMatch_runOps ops st h)⟩

/-- Witness for C2: a concrete rejected second start and a concrete run. -/
theorem treatment_mutual_exclusion_witness :
    stepOp (Op.start Treatment.Standard 9) (startTimer Treatment.Basic 0 initMachine).1
      = (startTimer Treatment.Basic 0 initMachine).1 ∧
    activeRelayCount (runOps
      [Op.start Treatment.Basic 0, Op.start Treatment.Premium 1, Op.tickAt 6000]
      initMachine) ≤ 1 := by
  refine ⟨(treatment_mutual_exclusion _).1 Treatment.Standard 9 (by decide), ?_⟩
  exact ((treatment_mutual_exclusion initMachine).2.2 _ rfl).2

/-- The treatment-related serial command dispatch in loop (main.cpp lines
1722-1725): a single received character starts a treatment (b/s/p) or calls
stopTreatment (x).  The remaining serial branches are GPIO_TEST_MODE
diagnostics (lines 1729-1914) and never touch the active-treatment state. -/
def serialStep (cmd : Char) (now : Nat) (st : Machine) : Machine :=
  let st1 := if cmd = 'b' ∨ cmd = 'B' then (startTimer Treatment.Basic now st).1 else st
  let st2 := if cmd = 's' ∨ cmd = 'S' then (startTimer Treatment.Standard now st1).1 else st1
  let st3 := if cmd = 'p' ∨ cmd = 'P' then (startTimer Treatment.Premium now st2).1 else st2
  if cmd = 'x' ∨ cmd = 'X' then stopTreatment st3 else st3

/-- Claim C3 evidence: a single 'x' byte received 100 ms after the start,
with the stop control never released and held for far less than the 2000 ms
threshold, stops the active treatment immediately.  The firmware's own UI
text (main.cpp lines 2 and 486) promises a 2-second hold, and the hold
tracker btnPHoldStart (line 249) is never read. -/
theorem serial_x_stops_without_hold :
    ((startTimer Treatment.Basic 0 initMachine).1).active = Treatment.Basic ∧
    (serialStep 'x' 100 (startTimer Treatment.Basic 0 initMachine).1).active
      = Treatment.None ∧
    (100 : Nat) < 2000 := by
  refine ⟨rfl, ?_, by decide⟩
  decide

/-- Claim C10: stopTreatment is a no-op when idle; when a treatment is
active it turns all six relay channels off and leaves the counters, reset
epoch, device identity, and EEPROM image unchanged. -/
theorem stopTreatment_offs_and_frame (st : Machine) :
    (st.active = Treatment.None → stopTreatment st = st) ∧
    (st.active ≠ Treatment.None →
      (stopTreatment st).relays = allOff ∧
      (stopTreatment st).active = Treatment.None ∧
      (stopTreatment st).counterB = st.counterB ∧
      (stopTreatment st).counterS = st.counterS ∧
      (stopTreatment st).counterP = st.counterP ∧
      (stopTreatment st).resetCounter = st.resetCounter ∧
      (stopTreatment st).deviceId = st.deviceId ∧
      (stopTreatment st).deviceToken = st.deviceToken ∧
      (stopTreatment st).eeprom = st.eeprom) := by
  constructor
  · intro h; simp [stopTreatment, h]
  · intro h; simp [stopTreatment, h]

/-- Witness for C10: the no-op case on the boot state and the all-off case
on a concretely started machine. -/
theorem stopTreatment_offs_and_frame_witness :
    stopTreatment initMachine = initMachine ∧
    (stopTreatment (startTimer Treatment.Premium 3 initMachine).1).relays = allOff := by
  exact ⟨(stopTreatment_offs_and_frame initMachine).1 rfl,
    ((stopTreatment_offs_and_frame _).2 (by decide)).1⟩

/-- Retry state of one backoff domain: currentRetryDelay and retryAttempts
(main.cpp lines 152-154). -/
structure RetryState : Type where
  delay : Nat
  attempts : Nat
  deriving DecidableEq, Repr

/-- The jitter magnitude j = (d * RETRY_JITTER_PERCENT) / 100 computed by
nextBackoffMs. -/
def jitterOf (d : Nat) : Nat := d * RETRY_JITTER_PERCENT / 100

/-- nextBackoffMs (main.cpp line 730).  The pseudo-random sample of
`random(-(int32_t)j, (int32_t)j + 1)` is the parameter `off`.  The call
returns the produced wait — the old delay plus the jitter offset, clamped
below at 1000 ms — and stores the old delay doubled up to
RETRY_MAX_DELAY_MS with the attempt count incremented. -/
def nextBackoffMs (st : RetryState) (off : Int) : Nat × RetryState :=
  let d := st.delay
  let res : Int := (d : Int) + off
  let ret : Nat := if res < 1000 then 1000 else res.toNat
  (ret, ⟨min (d * 2) RETRY_MAX_DELAY_MS, st.attempts + 1⟩)

/-- resetBackoff (main.cpp line 729). -/
def resetBackoff : RetryState := ⟨RETRY_BASE_DELAY_MS, 0⟩

/-- Validity of a sequence of jitter samples: each lies in the closed
interval [-j, j] that `random(-j, j + 1)` draws from, where j is computed
from the delay current at that step. -/
def validOffsB : RetryState → List Int → Bool
  | _, [] => true
  | st, off :: offs =>
      (decide (-(jitterOf st.delay : Int) ≤ off) &&
       decide (off ≤ (jitterOf st.delay : Int))) &&
        validOffsB (nextBackoffMs st off).2 offs

/-- Wait times produced by a run of consecutive failures. -/
def backoffWaits : RetryState → List Int → List Nat
  | _, [] => []
  | st, off :: offs =>
      (nextBackoffMs st off).1 :: backoffWaits (nextBackoffMs st off).2 offs

/-- The internal delay value before each failure of a run, and after the
last one. -/
def backoffDelays : RetryState → List Int → List Nat
  | st, [] => [st.delay]
  | st, off :: offs => st.delay :: backoffDelays (nextBackoffMs st off).2 offs

theorem backoffDelays_head (st : RetryState) (offs : List Int) :
    ∃ l, backoffDelays st offs = st.delay :: l := by
  cases offs <;> exact ⟨_, rfl⟩

theorem jitterOf_mono {a b : Nat} (h : a ≤ b) : jitterOf a ≤ jitterOf b :=
  Nat.div_le_div_right (Nat.mul_le_mul_right _ h)

/-- Side-channel trace of a network routine: how many times it ran
performHandshake and how many GET/POST requests it issued. -/
structure NetTrace : Type where
  handshakes : Nat
  calls : Nat
  deriving DecidableEq, Repr

/-- uploadEventJson (main.cpp lines 649-727): fails without a POST when the
device token is empty, WiFi is down, or http.begin fails; otherwise it
POSTs the record once and returns ok exactly for a 2xx response code.  A
401 is treated like any other failure: no re-handshake, no retry. -/
def uploadEventJson (tok : String) (wifi beginOk : Bool) (code : Int) :
    Bool × NetTrace :=
  if tok.length = 0 then (false, ⟨0, 0⟩)
  else if wifi = false then (false, ⟨0, 0⟩)
  else if beginOk = false then (false, ⟨0, 0⟩)
  else (decide (200 ≤ code ∧ code < 300), ⟨0, 1⟩)

/-- Sync-engine state for the event-upload cycle.  Modelled from the spec:
the durable FIFO event queue of §4.2 (peek reads the earliest record, pop
removes exactly it) — the SD-card queue was removed from this firmware
revision and the EEPROM stubs of main.cpp lines 489-511 hold no records, so
the pending records are carried here as a list, earliest first. -/
structure SyncState : Type where
  queue : List String
  currentRetryDelay : Nat
  retryAttempts : Nat
  deriving DecidableEq, Repr

/-- The event-upload slice of loop (main.cpp lines 1977-2026), entered with
WiFi connected and the retry delay already elapsed.  On a successful pop
the loop calls resetBackoff; on a failed upload it assigns the wait
produced by nextBackoffMs to the uint32_t currentRetryDelay — the source
returns `(uint32_t)res`, modelled as reduction modulo 2^32 — while the
uint8_t retryAttempts global incremented inside nextBackoffMs wraps modulo
256; with an empty queue the else-branch calls resetBackoff. -/
def processEventQueue (tok : String) (beginOk : Bool) (code : Int) (off : Int)
    (s : SyncState) : SyncState :=
  match s.queue with
  | [] => { s with
      currentRetryDelay := RETRY_BASE_DELAY_MS
      retryAttempts := 0 }
  | line :: rest =>
      if line.length = 0 then s
      else if (uploadEventJson tok true beginOk code).1 then
        { s with
            queue := rest
            currentRetryDelay := RETRY_BASE_DELAY_MS
            retryAttempts := 0 }
      else
        { s with
            currentRetryDelay :=
              (nextBackoffMs ⟨s.currentRetryDelay, s.retryAttempts⟩ off).1 % U32
            retryAttempts := (s.retryAttempts + 1) % 256 }

/-- appendEventToQueue (main.cpp lines 493-496): the simplified EEPROM
implementation ignores the record and reports success unconditionally. -/
def appendEventToQueue (_line : String) : Bool := true

/-- appendCommandToQueue (main.cpp lines 514-517): identical stub. -/
def appendCommandToQueue (_line : String) : Bool := true

/-- queueSize (main.cpp lines 498-501): the simplified queue always
reports zero bytes. -/
def queueSize : Nat := 0

/-- A record larger on its own than the 4 MiB cap the specification names
for the event log. -/
def bigRecord : String := String.mk (List.replicate (4 * 1024 * 1024 + 1) 'a')

/-- Environment of one pollCommands call: WiFi status, the two http.begin
outcomes, the response code of the first GET, the outcome of the
re-handshake taken on a 401, and the response code of the retried GET. -/
structure PollEnv : Type where
  wifi : Bool
  beginOk1 : Bool
  code1 : Int
  hsOk : Bool
  beginOk2 : Bool
  code2 : Int
  deriving DecidableEq, Repr

/-- pollCommands (main.cpp lines 981-1115) reduced to its control flow:
fail fast without WiFi, token, or http.begin; GET once; on a 401 run
performHandshake once and, only if it succeeds and http.begin succeeds
again, issue exactly one retry GET whose code replaces the first; the
common 2xx test then decides the result, so a second 401 simply fails
without another handshake. -/
def pollCommands (tok : String) (env : PollEnv) : Bool × NetTrace :=
  if env.wifi = false then (false, ⟨0, 0⟩)
  else if tok.length = 0 then (false, ⟨0, 0⟩)
  else if env.beginOk1 = false then (false, ⟨0, 0⟩)
  else if env.code1 = 401 then
    if env.hsOk then
      if env.beginOk2 = false then (false, ⟨1, 1⟩)
      else (decide (200 ≤ env.code2 ∧ env.code2 < 300), ⟨1, 2⟩)
    else (false, ⟨1, 1⟩)
  else (decide (200 ≤ env.code1 ∧ env.code1 < 300), ⟨0, 1⟩)

/-- enum class CommandType (main.cpp lines 135-139). -/
inductive CommandType : Type
  | RESET_COUNTERS
  | CLEAR_MEMORY
  | CLEAR_QUEUE
  | REBOOT_DEVICE
  | UPDATE_SETTINGS
  | GET_STATUS
  | SYNC_TIME
  | UPDATE_FIRMWARE
  | UNKNOWN
  deriving DecidableEq, Repr

/-- The result report POSTed by reportCommandResult (main.cpp lines
1145-1170): the success flag and the current_counters snapshot read from
the counter globals at reporting time. -/
structure CmdReport : Type where
  success : Bool
  snapB : Nat
  snapS : Nat
  snapP : Nat
  deriving DecidableEq, Repr

/-- The report reportCommandResult builds from the state it runs in. -/
def mkReport (st : Machine) (ok : Bool) : CmdReport :=
  ⟨ok, st.counterB, st.counterS, st.counterP⟩

/-- EEPROM image after CLEAR_MEMORY writes 0xFF to every cell outside the
WiFi-credential range: the u32 cells read back 0xFFFFFFFF and the identity
strings read back empty, since eepromReadString stops at a 0xFF byte. -/
def erasedEeprom : Eeprom := ⟨U32 - 1, U32 - 1, U32 - 1, U32 - 1, "", ""⟩

/-- executeCommand (main.cpp lines 1200-1283) without its final
reportCommandResult call: yields the successor state and the report that
call POSTs, or none for REBOOT_DEVICE, which restarts before any report. -/
def executeCommand (t : CommandType) (st : Machine) : Option (Machine × CmdReport) :=
  match t with
  | CommandType.RESET_COUNTERS =>
      let st1 := { st with
        counterB := 0, counterS := 0, counterP := 0
        resetCounter := (st.resetCounter + 1) % U32 }
      let st2 := saveCounters st1
      some (st2, mkReport st2 true)
  | CommandType.CLEAR_MEMORY =>
      let st1 := { st with eeprom := erasedEeprom }
      some (st1, mkReport st1 true)
  | CommandType.CLEAR_QUEUE => some (st, mkReport st true)
  | CommandType.REBOOT_DEVICE => Option.none
  | CommandType.GET_STATUS => some (st, mkReport st true)
  | CommandType.SYNC_TIME => some (st, mkReport st true)
  | CommandType.UPDATE_SETTINGS => some (st, mkReport st true)
  | CommandType.UPDATE_FIRMWARE => some (st, mkReport st false)
  | CommandType.UNKNOWN => some (st, mkReport st false)

/-- Environment of one performHandshake call: WiFi status, http.begin
outcome, the POST result code, whether deserializeJson succeeded, and the
strings read from doc for device_id and token. -/
structure HsEnv : Type where
  wifi : Bool
  beginOk : Bool
  code : Int
  parseOk : Bool
  devId : String
  devTok : String
  deriving DecidableEq, Repr

/-- performHandshake (main.cpp lines 535-608): saves the identity and
returns true exactly when the POST yields a positive result code whose body
parses as JSON carrying a non-empty device_id and a non-empty token; in
every other case it returns false and leaves the identity untouched.  The
source tests code > 0, not the 2xx class. -/
def performHandshake (env : HsEnv) (st : Machine) : Bool × Machine :=
  if env.wifi = false then (false, st)
  else if env.beginOk = false then (false, st)
  else if 0 < env.code then
    if env.parseOk then
      if 0 < env.devId.length ∧ 0 < env.devTok.length then
        (true, saveIdentity env.devId env.devTok st)
      else (false, st)
    else (false, st)
  else (false, st)

/-- The exact condition under which performHandshake stores an identity. -/
def updateCond (env : HsEnv) : Prop :=
  env.wifi = true ∧ env.beginOk = true ∧ 0 < env.code ∧ env.parseOk = true ∧
    0 < env.devId.length ∧ 0 < env.devTok.length

/-- Claim C4: when an upload attempt is made on the earliest queued event,
a 2xx response pops exactly that record and resets the retry domain to the
base delay with zero attempts; any non-2xx outcome (including negative
network-failure codes) leaves the queue unchanged and advances the delay
and attempt count through nextBackoffMs, the delay stored as a uint32_t
and the attempt count wrapping as the uint8_t it is (255 wraps to 0).  The
hypotheses restrict the pre-state to machine-representable values of the
two globals. -/
theorem upload_cycle_spec (tok : String) (beginOk : Bool) (code off : Int)
    (line : String) (rest : List String) (d a : Nat)
    (hline : line.length ≠ 0) (_hd : d < U32) (_ha : a < 256) :
    (200 ≤ code ∧ code < 300 ∧ tok.length ≠ 0 ∧ beginOk = true →
      processEventQueue tok beginOk code off ⟨line :: rest, d, a⟩
        = ⟨rest, RETRY_BASE_DELAY_MS, 0⟩) ∧
    (¬ (200 ≤ code ∧ code < 300) →
      processEventQueue tok beginOk code off ⟨line :: rest, d, a⟩
        = ⟨line :: rest, (nextBackoffMs ⟨d, a⟩ off).1 % U32, (a + 1) % 256⟩) := by
  constructor
  · rintro ⟨h1, h2, h3, h4⟩
    simp [processEventQueue, uploadEventJson, hline, h1, h2, h3, h4]
  · intro h
    have hup : (uploadEventJson tok true beginOk code).1 = false := by
      by_cases h0 : tok.length = 0
      · simp [uploadEventJson, h0]
      · by_cases hb : beginOk = false
        · simp [uploadEventJson, h0, hb]
        · simp [uploadEventJson, h0, hb, h]
    simp [processEventQueue, hline, hup]

/-- Witness for C4: a concrete 200 pop-and-reset and a concrete 500
backoff advance. -/
theorem upload_cycle_spec_witness :
    processEventQueue "tok" true 200 0 ⟨["e1"], 2000, 0⟩
      = ⟨[], RETRY_BASE_DELAY_MS, 0⟩ ∧
    processEventQueue "tok" true 500 0 ⟨["e1"], 2000, 0⟩
      = ⟨["e1"], (nextBackoffMs ⟨2000, 0⟩ 0).1 % U32, (0 + 1) % 256⟩ := by
  exact ⟨(upload_cycle_spec "tok" true 200 0 "e1" [] 2000 0 (by decide) (by decide)
        (by decide)).1 ⟨by decide, by decide, by decide, rfl⟩,
    (upload_cycle_spec "tok" true 500 0 "e1" [] 2000 0 (by decide) (by decide)
        (by decide)).2 (by decide)⟩

/-- The base retry state the firmware boots with. -/
def baseRetryState : RetryState := ⟨RETRY_BASE_DELAY_MS, 0⟩

/-- A valid run of ten consecutive failures: eight zero-jitter steps that
double the delay to its cap, then a maximal positive jitter sample and a
maximal negative one at the cap. -/
def cexOffs : List Int := [0, 0, 0, 0, 0, 0, 0, 0, 60000, -60000]

/-- Counterexample to claim C5 as stated: the run cexOffs is a valid run of
consecutive failures, yet its produced wait times are neither non-decreasing
nor all bounded by RETRY_MAX_DELAY_MS — at the cap the +20% jitter yields
360000 ms > 300000 ms, followed by 240000 ms. -/
theorem backoff_monotone_bounded_false :
    validOffsB baseRetryState cexOffs = true ∧
    ¬ (List.Chain' (fun a b => a ≤ b) (backoffWaits baseRetryState cexOffs) ∧
       ∀ w ∈ backoffWaits baseRetryState cexOffs, w ≤ RETRY_MAX_DELAY_MS) := by
  have hw : backoffWaits baseRetryState cexOffs
      = [2000, 4000, 8000, 16000, 32000, 64000, 128000, 256000, 360000, 240000] := by
    decide
  refine ⟨by decide, ?_⟩
  intro h
  have hb := h.2 360000 (by rw [hw]; decide)
  have hMax : RETRY_MAX_DELAY_MS = 300000 := rfl
  omega

/-- Claim C5 amended: along any valid failure run the internal (pre-jitter)
delay sequence is non-decreasing and bounded by RETRY_MAX_DELAY_MS, while
each produced wait time is only bounded by the maximum plus its 20% jitter
allowance and never falls below the 1000 ms floor. -/
theorem nextBackoffMs_ret_bounds (st : RetryState) (off : Int)
    (hlo : -(jitterOf st.delay : Int) ≤ off) (hhi : off ≤ (jitterOf st.delay : Int))
    (hd : st.delay ≤ RETRY_MAX_DELAY_MS) :
    1000 ≤ (nextBackoffMs st off).1 ∧
      (nextBackoffMs st off).1 ≤ RETRY_MAX_DELAY_MS + jitterOf RETRY_MAX_DELAY_MS := by
  have h1 : (nextBackoffMs st off).1
      = if ((st.delay : Int) + off < 1000) then 1000
        else ((st.delay : Int) + off).toNat := rfl
  rw [h1]
  simp only [jitterOf, RETRY_JITTER_PERCENT, RETRY_MAX_DELAY_MS] at hlo hhi hd ⊢
  split <;> constructor <;> omega

theorem backoff_amended (st : RetryState) (offs : List Int)
    (hv : validOffsB st offs = true) (hd : st.delay ≤ RETRY_MAX_DELAY_MS) :
    (∀ w ∈ backoffWaits st offs,
      1000 ≤ w ∧ w ≤ RETRY_MAX_DELAY_MS + jitterOf RETRY_MAX_DELAY_MS) ∧
    List.Chain' (fun a b => a ≤ b) (backoffDelays st offs) ∧
    (∀ d ∈ backoffDelays st offs, d ≤ RETRY_MAX_DELAY_MS) := by
  induction offs generalizing st with
  | nil =>
      refine ⟨by simp [backoffWaits], by simp [backoffDelays], ?_⟩
      simpa [backoffDelays] using hd
  | cons off offs ih =>
      simp only [validOffsB, Bool.and_eq_true, decide_eq_true_eq] at hv
      obtain ⟨⟨hlo, hhi⟩, hrest⟩ := hv
      have hd2 : (nextBackoffMs st off).2.delay ≤ RETRY_MAX_DELAY_MS :=
        Nat.min_le_right _ _
      obtain ⟨ihW, ihC, ihD⟩ := ih (nextBackoffMs st off).2 hrest hd2
      refine ⟨?_, ?_, ?_⟩
      · intro w hw
        simp only [backoffWaits, List.mem_cons] at hw
        rcases hw with hw | hw
        · subst hw
          exact nextBackoffMs_ret_bounds st off hlo hhi hd
        · exact ihW w hw
      · obtain ⟨l, hl⟩ := backoffDelays_head (nextBackoffMs st off).2 offs
        have hstep : st.delay ≤ (nextBackoffMs st off).2.delay :=
          le_min (by omega) hd
        simp only [backoffDelays]
        rw [hl] at ihC ⊢
        exact List.chain'_cons.2 ⟨hstep, ihC⟩
      · intro d hdm
        simp only [backoffDelays, List.mem_cons] at hdm
        rcases hdm with hdm | hdm
        · subst hdm; exact hd
        · exact ihD d hdm

/-- Witness for the amended C5 on a concrete valid two-failure run. -/
theorem backoff_amended_witness :
    validOffsB baseRetryState [400, -800] = true ∧
    List.Chain' (fun a b => a ≤ b) (backoffDelays baseRetryState [400, -800]) :=
  ⟨by decide, (backoff_amended baseRetryState [400, -800] (by decide) (by decide)).2.1⟩

/-- Counterexample to claim C6 as stated: a record that on its own exceeds
the 4 MiB cap the specification names is accepted — appendEventToQueue
reports success, never failure, because the simplified EEPROM queue has no
size limit (and stores nothing). -/
theorem append_size_cap_false :
    4 * 1024 * 1024 < queueSize + bigRecord.length ∧
    appendEventToQueue bigRecord ≠ false := by
  constructor
  · have hlen : bigRecord.length = 4 * 1024 * 1024 + 1 := by
      have h : bigRecord.length = (List.replicate (4 * 1024 * 1024 + 1) 'a').length := rfl
      rw [h, List.length_replicate]
    have hq : queueSize = 0 := rfl
    omega
  · intro hfalse
    exact Bool.noConfusion hfalse

/-- Claim C6 amended: both append functions report success for every
record; the simplified queue has no configured maximum, persists nothing,
and its size is always zero, so over-long records are silently discarded
with success reported rather than rejected. -/
theorem append_always_succeeds (line : String) :
    appendEventToQueue line = true ∧ appendCommandToQueue line = true ∧
    queueSize = 0 :=
  ⟨rfl, rfl, rfl⟩

/-- Counterexample to claim C7 as stated: the authenticated event-upload
call answers a 401 with zero re-handshakes and zero retries (one single
POST), not the one re-handshake and one retry the claim requires. -/
theorem upload_401_no_rehandshake :
    (uploadEventJson "token" true true 401).2 = ⟨0, 1⟩ ∧
    (uploadEventJson "token" true true 401).1 = false ∧
    (0 : Nat) ≠ 1 := by
  refine ⟨by decide, by decide, by decide⟩

/-- Claim C7 amended: for the command poll a first 401 triggers exactly one
re-handshake, at most one retry GET (taken only when the re-handshake
succeeds), and a 401 on the retry fails without any further handshake; the
event upload performs no re-handshake at all on 401. -/
theorem poll_401_single_rehandshake (tok : String) (env : PollEnv)
    (hw : env.wifi = true) (ht : tok.length ≠ 0) (hb : env.beginOk1 = true)
    (h401 : env.code1 = 401) :
    (pollCommands tok env).2.handshakes = 1 ∧
    (pollCommands tok env).2.calls ≤ 2 ∧
    (env.code2 = 401 → (pollCommands tok env).1 = false) ∧
    (uploadEventJson tok true true 401).2.handshakes = 0 := by
  have hup : (uploadEventJson tok true true 401).2.handshakes = 0 := by
    by_cases h0 : tok.length = 0
    · simp [uploadEventJson, h0]
    · simp [uploadEventJson, h0]
  by_cases hh : env.hsOk
  · by_cases hb2 : env.beginOk2 = false
    · exact ⟨by simp [pollCommands, hw, ht, hb, h401, hh, hb2],
        by simp [pollCommands, hw, ht, hb, h401, hh, hb2],
        fun _ => by simp [pollCommands, hw, ht, hb, h401, hh, hb2], hup⟩
    · refine ⟨by simp [pollCommands, hw, ht, hb, h401, hh, hb2],
        by simp [pollCommands, hw, ht, hb, h401, hh, hb2], ?_, hup⟩
      intro h2
      simp [pollCommands, hw, ht, hb, h401, hh, hb2, h2]
  · exact ⟨by simp [pollCommands, hw, ht, hb, h401, hh],
      by simp [pollCommands, hw, ht, hb, h401, hh],
      fun _ => by simp [pollCommands, hw, ht, hb, h401, hh], hup⟩

/-- Witness for the amended C7: a concrete poll whose first GET and retried
GET both answer 401. -/
theorem poll_401_single_rehandshake_witness :
    (pollCommands "t" ⟨true, true, 401, true, true, 401⟩).2.handshakes = 1 ∧
    (pollCommands "t" ⟨true, true, 401, true, true, 401⟩).1 = false :=
  ⟨(poll_401_single_rehandshake "t" ⟨true, true, 401, true, true, 401⟩
      rfl (by decide) rfl rfl).1,
   (poll_401_single_rehandshake "t" ⟨true, true, 401, true, true, 401⟩
      rfl (by decide) rfl rfl).2.2.1 rfl⟩

/-- Claim C8: executing a ResetCounters command zeroes all three per-kind
counters, increments the reset epoch by exactly one, persists both to
EEPROM, and reports success with an all-zero counters snapshot. -/
theorem reset_counters_execute (st : Machine) (h : st.resetCounter + 1 < U32) :
    ∃ st2 r, executeCommand CommandType.RESET_COUNTERS st = some (st2, r) ∧
      st2.counterB = 0 ∧ st2.counterS = 0 ∧ st2.counterP = 0 ∧
      st2.resetCounter = st.resetCounter + 1 ∧
      st2.eeprom.eCounterB = 0 ∧ st2.eeprom.eCounterS = 0 ∧
      st2.eeprom.eCounterP = 0 ∧
      st2.eeprom.eResetCounter = st.resetCounter + 1 ∧
      r.success = true ∧ r.snapB = 0 ∧ r.snapS = 0 ∧ r.snapP = 0 := by
  refine ⟨_, _, rfl, ?_, ?_, ?_, ?_, ?_, ?_, ?_, ?_, ?_, ?_, ?_, ?_⟩ <;>
    simp [executeCommand, saveCounters, mkReport, Nat.mod_eq_of_lt h]

/-- Witness for C8: executing ResetCounters on the boot state reports
success with the all-zero snapshot. -/
theorem reset_counters_execute_witness :
    (executeCommand CommandType.RESET_COUNTERS initMachine).map
        (fun p => (p.2.success, p.2.snapB, p.2.snapS, p.2.snapP))
      = some (true, 0, 0, 0) := by
  obtain ⟨st2, r, he, _, _, _, _, _, _, _, _, hs, hB, hS, hP⟩ :=
    reset_counters_execute initMachine (by decide)
  rw [he]
  simp [hs, hB, hS, hP]

/-- The stored identity before the handshake of the C9 counterexample. -/
def stOld : Machine :=
  { initMachine with deviceId := "old-id", deviceToken := "old-tok" }

/-- An HTTP 500 error response whose body nevertheless parses as JSON with
both identity fields present. -/
def hsErrEnv : HsEnv := ⟨true, true, 500, true, "dev-1", "tok-1"⟩

/-- Counterexample to claim C9 as stated: on an HTTP error response (500)
whose body still parses with a non-empty device_id and token,
performHandshake returns true and overwrites the stored identity, instead
of returning false and leaving it unchanged. -/
theorem handshake_http_error_updates :
    (400 : Int) ≤ 500 ∧
    (performHandshake hsErrEnv stOld).1 = true ∧
    (performHandshake hsErrEnv stOld).2.deviceId = "dev-1" ∧
    (performHandshake hsErrEnv stOld).2.eeprom.eDeviceId = "dev-1" ∧
    stOld.deviceId = "old-id" := by
  refine ⟨by decide, by decide, by decide, by decide, rfl⟩

/-- Claim C9 amended: performHandshake stores and persists the identity
exactly when WiFi is up, http.begin succeeds, the POST yields a positive
result code (any HTTP status, error classes included), the body parses as
JSON, and both device_id and token are non-empty; in every other case it
returns false and the RAM and EEPROM identity are both unchanged. -/
theorem handshake_update_characterization (env : HsEnv) (st : Machine) :
    (updateCond env →
      performHandshake env st = (true, saveIdentity env.devId env.devTok st)) ∧
    (¬ updateCond env → performHandshake env st = (false, st)) := by
  constructor
  · rintro ⟨h1, h2, h3, h4, h5, h6⟩
    simp [performHandshake, h1, h2, h3, h4, h5, h6]
  · intro h
    by_cases h1 : env.wifi = false
    · simp [performHandshake, h1]
    · by_cases h2 : env.beginOk = false
      · simp [performHandshake, h1, h2]
      · by_cases h3 : 0 < env.code
        · by_cases h4 : env.parseOk = true
          · by_cases h5 : 0 < env.devId.length ∧ 0 < env.devTok.length
            · exact absurd ⟨by simpa using h1, by simpa using h2, h3, h4,
                h5.1, h5.2⟩ h
            · simp [performHandshake, h1, h2, h3, h4, h5]
          · simp [performHandshake, h1, h2, h3, h4]
        · simp [performHandshake, h1, h2, h3]

/-- Witness for the amended C9: a concrete successful handshake and a
concrete parse failure. -/
theorem handshake_update_characterization_witness :
    performHandshake ⟨true, true, 200, true, "dev-1", "tok-1"⟩ initMachine
      = (true, saveIdentity "dev-1" "tok-1" initMachine) ∧
    performHandshake ⟨true, true, 200, false, "dev-1", "tok-1"⟩ initMachine
      = (false, initMachine) := by
  constructor
  · exact (handshake_update_characterization ⟨true, true, 200, true, "dev-1", "tok-1"⟩
      initMachine).1 ⟨rfl, rfl, by decide, rfl, by decide, by decide⟩
  · exact (handshake_update_characterization ⟨true, true, 200, false, "dev-1", "tok-1"⟩
      initMachine).2 (fun hc => by exact absurd hc.2.2.2.1 (by decide))

end Ozone
